import Mathlib

/-!
Shallow embedding of the zorm query compiler (queryset.go and mysql/operators.go).
Go strings are modelled as Lean `String`s viewed as their character lists; the
byte-slicing operations of the source (`s[:n]`, `s[n:]`) are modelled as
character take/drop, which coincides for the ASCII text the compiler produces.
`log.Panicf` aborts are modelled as `Except.error` carrying the panic message.
-/

namespace Zorm

/-- Character test used by the model of Go's strings.TrimSpace. -/
def wsChar (c : Char) : Bool := c.isWhitespace

/-- Drop leading whitespace (left half of strings.TrimSpace). -/
def trimLeftL (l : List Char) : List Char := l.dropWhile wsChar

/-- Drop trailing whitespace (right half of strings.TrimSpace). -/
def trimRightL (l : List Char) : List Char := (l.reverse.dropWhile wsChar).reverse

/-- Model of Go strings.TrimSpace. -/
def goTrimSpace (s : String) : String := ⟨trimRightL (trimLeftL s.data)⟩

/-- Model of Go strings.HasPrefix. -/
def goStartsWith (s p : String) : Bool := p.data.isPrefixOf s.data

/-- Model of Go strings.HasSuffix. -/
def goEndsWith (s p : String) : Bool := p.data.isSuffixOf s.data

/-- Model of the Go slice `s[n:]` (character level). -/
def goDrop (s : String) (n : Nat) : String := ⟨s.data.drop n⟩

/-- Model of the Go slice `s[:n]` (character level). -/
def goTake (s : String) (n : Nat) : String := ⟨s.data.take n⟩

/-- Number of `?` placeholders in a character list. -/
def countQL (l : List Char) : Nat := (l.filter (fun c => c == '?')).length

/-- Number of `?` placeholders in a SQL fragment. -/
def countQ (s : String) : Nat := countQL s.data

/-- Model of Go strings.Repeat. -/
def repeatStr (s : String) : Nat → String
  | 0 => ""
  | n + 1 => s ++ repeatStr s n

/-- Left-to-right concatenation of a list of strings (Go `+=` loop). -/
def concatAll : List String → String
  | [] => ""
  | x :: r => x ++ concatAll r

/-- Model of Go strings.Join. -/
def goJoin : List String → String → String
  | [], _ => ""
  | [x], _ => x
  | x :: y :: r, sep => x ++ sep ++ goJoin (y :: r) sep

/-- Model of Go strings.Split on the separator "__" (the only separator the
compiler uses), as a left-to-right non-overlapping scan over the characters. -/
def splitUU : List Char → List (List Char)
  | [] => [[]]
  | '_' :: '_' :: rest => [] :: splitUU rest
  | c :: rest =>
    match splitUU rest with
    | [] => [[c]]
    | p :: ps => (c :: p) :: ps

/-- Model of Go strings.Split(s, "__"). -/
def goSplitUU (s : String) : List String := (splitUU s.data).map (fun l => ⟨l⟩)

/-- Go reflect.Kind values the compiler branches on. `kUPtr` stands for
reflect.UnsafePointer and `kIface` for reflect.Interface. -/
inductive Kind where
  | kString | kBool
  | kUint | kUint16 | kUint32 | kUint64
  | kInt | kInt8 | kInt16 | kInt32 | kInt64
  | kFloat32 | kFloat64
  | kSlice | kArray
  | kChan | kFunc | kMap | kPtr | kUintptr | kUPtr
  | kComplex64 | kComplex128 | kInvalid | kIface
deriving DecidableEq

/-- reflect.Kind.String() names, used by the panic messages. -/
def kindName : Kind → String
  | .kString => "string" | .kBool => "bool"
  | .kUint => "uint" | .kUint16 => "uint16" | .kUint32 => "uint32" | .kUint64 => "uint64"
  | .kInt => "int" | .kInt8 => "int8" | .kInt16 => "int16" | .kInt32 => "int32" | .kInt64 => "int64"
  | .kFloat32 => "float32" | .kFloat64 => "float64"
  | .kSlice => "slice" | .kArray => "array"
  | .kChan => "chan" | .kFunc => "func" | .kMap => "map" | .kPtr => "ptr"
  | .kUintptr => "uintptr" | .kUPtr => "unsafe.Pointer"
  | .kComplex64 => "complex64" | .kComplex128 => "complex128"
  | .kInvalid => "invalid" | .kIface => "interface"

/-- A Go value as the compiler sees it: its reflect kind, an opaque scalar
payload (never inspected by the compiler, only carried into the argument
list) and, for slices/arrays, the element values. -/
inductive GoVal : Type where
  | mk : Kind → String → List GoVal → GoVal

def GoVal.kind : GoVal → Kind
  | .mk k _ _ => k

def GoVal.lit : GoVal → String
  | .mk _ s _ => s

def GoVal.elems : GoVal → List GoVal
  | .mk _ _ es => es

def GoVal.int (n : Int) : GoVal := .mk .kInt (toString n) []

def GoVal.str (s : String) : GoVal := .mk .kString s []

def GoVal.bool (b : Bool) : GoVal := .mk .kBool (toString b) []

def GoVal.slice (es : List GoVal) : GoVal := .mk .kSlice "" es

/-- The scalar reflect kinds accepted by the first case of the value switch in
filterHandler (string, bool, all uints, ints, floats). -/
def isScalarKind : Kind → Bool
  | .kString | .kBool
  | .kUint | .kUint16 | .kUint32 | .kUint64
  | .kInt | .kInt8 | .kInt16 | .kInt32 | .kInt64
  | .kFloat32 | .kFloat64 => true
  | _ => false

/-- reflect.Slice and reflect.Array. -/
def isSliceKind : Kind → Bool
  | .kSlice | .kArray => true
  | _ => false

/-- Element kinds rejected inside a slice/array by filterHandler. -/
def isBannedElemKind : Kind → Bool
  | .kInvalid | .kChan | .kFunc | .kMap | .kPtr | .kUintptr | .kUPtr
  | .kComplex64 | .kComplex128 => true
  | _ => false

mutual
/-- Erase every scalar payload in a value, keeping kinds and shape. Used to
state that payloads never reach the SQL text. -/
def stripLits : GoVal → GoVal
  | .mk k _ es => .mk k "" (stripListOfVals es)

/-- stripLits mapped over a list of values. -/
def stripListOfVals : List GoVal → List GoVal
  | [] => []
  | v :: vs => stripLits v :: stripListOfVals vs
end

/-- The mysql operator table (mysql/operators.go). -/
def operators : List (String × String) :=
  [("exact", "="), ("exclude", "!="), ("iexact", "LIKE"),
   ("contains", "LIKE BINARY"), ("icontains", "LIKE"),
   ("gt", ">"), ("gte", ">="), ("lt", "<"), ("lte", "<="),
   ("startswith", "LIKE BINARY"), ("endswith", "LIKE BINARY"),
   ("istartswith", "LIKE"), ("iendswith", "LIKE"),
   ("in", "IN"), ("between", "BETWEEN")]

/-- OperatorSQL of the mysql backend: a Go map lookup, returning the zero
value "" when the keyword is absent. -/
def OperatorSQL (operator : String) : String :=
  (operators.lookup operator).getD ""

/-- The ANDOR array of queryset.go, indexed by the combinator flag. -/
def ANDOR (flag : Nat) : String := if flag = 0 then "AND" else "OR"

/-- The BLANKNOT array of queryset.go, indexed by the combinator flag. -/
def BLANKNOT (flag : Nat) : String := if flag = 0 then "" else "NOT"

/-- One compiled fragment with its arguments (queryFilter in queryset.go). -/
structure queryFilter where
  SQL : String
  Args : List GoVal

/-- The QuerySetImpl state (the embedded Operator is fixed to the mysql one). -/
structure QuerySetImpl where
  selectColumn : String
  whereCondition : queryFilter
  filterCondition : List queryFilter
  excludeCondition : List queryFilter
  orderBySQL : String
  limitSQL : String
  groupSQL : String

/-- NewQuerySet's fresh state. -/
def NewQuerySet : QuerySetImpl :=
  ⟨"", ⟨"", []⟩, [], [], "", "", ""⟩

/-- The mutable loop variables of filterHandler; fieldName, operator and flag
are declared outside the loop and therefore persist across iterations. -/
structure LoopState where
  fieldName : String
  operator : String
  flag : Nat
  sql : String
  args : List GoVal

/-- The lookup-key analysis at the top of filterHandler's loop. On one part
the operator is exact with AND; two parts choose the operator or, for `Q`,
exact with OR; three parts require a trailing `Q`; with more than three parts
no branch of the source runs, so the previous iteration's operator and flag
are kept (only the field name is refreshed). -/
def parseKey (prevOperator : String) (prevFlag : Nat) (key : String) :
    Except String (String × String × Nat) :=
  let fl := goSplitUU key
  let fieldName := fl.headD ""
  if fl.length = 1 then .ok (fieldName, "exact", 0)
  else if fl.length = 2 then
    if fl.getD 1 "" ≠ "Q" then .ok (fieldName, fl.getD 1 "", 0)
    else .ok (fieldName, "exact", 1)
  else if fl.length = 3 then
    if fl.getD 2 "" = "Q" then .ok (fieldName, fl.getD 1 "", 1)
    else .error ("FieldLookups [" ++ key ++ "] is invalid.")
  else .ok (fieldName, prevOperator, prevFlag)

/-- One iteration of filterHandler's loop over (key, value) pairs. -/
def filterStep (st : LoopState) (key : String) (v : GoVal) :
    Except String LoopState :=
  match parseKey st.operator st.flag key with
  | .error e => .error e
  | .ok (fieldName, operator, flag) =>
    let op := OperatorSQL operator
    if isScalarKind v.kind then
      if operator = "in" ∨ operator = "between" then
        .error ("Operator [" ++ operator ++ "] must be used with slice or array.")
      else
        .ok ⟨fieldName, operator, flag,
             st.sql ++ ANDOR flag ++ " `" ++ fieldName ++ "`" ++ op ++ "? ",
             st.args ++ [v]⟩
    else if isSliceKind v.kind then
      if v.elems.length = 0 then
        .error ("Empty slice or array for key [" ++ key ++ "].")
      else
        let k0 := (v.elems.headD v).kind
        if isBannedElemKind k0 then
          .error ("Unsupported slice type [" ++ kindName k0 ++ "] for key [" ++ key ++ "].")
        else
          let n := v.elems.length
          if operator = "exact" ∨ operator = "exclude" ∨ operator = "contains" ∨ operator = "icontains" then
            .ok ⟨fieldName, operator, flag,
                 st.sql ++ ANDOR flag ++ " ( " ++ fieldName ++ " " ++ op ++ " ?" ++
                   repeatStr (" " ++ ANDOR flag ++ " " ++ fieldName ++ " " ++ op ++ " ?") (n - 1) ++
                   " ) ",
                 st.args ++ v.elems⟩
          else if operator = "in" then
            .ok ⟨fieldName, operator, flag,
                 st.sql ++ ANDOR flag ++ " " ++ fieldName ++ " " ++ BLANKNOT flag ++ " " ++ op ++
                   " (?" ++ repeatStr ",?" (n - 1) ++ ") ",
                 st.args ++ v.elems⟩
          else if operator = "between" then
            .ok ⟨fieldName, operator, flag,
                 st.sql ++ ANDOR flag ++ " " ++ fieldName ++ " " ++ BLANKNOT flag ++ " " ++ op ++
                   " ? AND ? ",
                 st.args ++ v.elems⟩
          else .error ("Unsupported slice operator [" ++ operator ++ "].")
    else .error ("Unsupported data type [" ++ kindName v.kind ++ "] for key [" ++ key ++ "].")

/-- filterHandler's loop over the batch. -/
def filterLoop : List (String × GoVal) → LoopState → Except String LoopState
  | [], st => .ok st
  | (k, v) :: rest, st =>
    match filterStep st k v with
    | .error e => .error e
    | .ok st' => filterLoop rest st'

/-- filterHandler: compile one ordered batch of (lookup key, value) pairs to
a fragment and its argument list. The input mapping of the source is taken as
an ordered sequence of pairs. -/
def filterHandler (pairs : List (String × GoVal)) :
    Except String (String × List GoVal) :=
  if pairs.length = 0 then .ok ("", [])
  else
    match filterLoop pairs ⟨"", "", 0, "", []⟩ with
    | .error e => .error e
    | .ok st =>
      if goTrimSpace st.sql = "" then .ok (goTrimSpace st.sql, st.args)
      else if goStartsWith (goTrimSpace st.sql) "OR" then
        .ok (goDrop (goTrimSpace st.sql) 3, st.args)
      else if goStartsWith (goTrimSpace st.sql) "AND" then
        .ok (goDrop (goTrimSpace st.sql) 4, st.args)
      else .error ("Generate sql error. " ++ goTrimSpace st.sql)

/-- FilterToSQL: append the compiled batch as an include fragment when it is
non-empty. -/
def FilterToSQL (p : QuerySetImpl) (pairs : List (String × GoVal)) :
    Except String QuerySetImpl :=
  match filterHandler pairs with
  | .error e => .error e
  | .ok (sql, args) =>
    if sql = "" then .ok p
    else .ok { p with filterCondition := p.filterCondition ++ [⟨sql, args⟩] }

/-- ExcludeToSQL: append the compiled batch as an exclude fragment when it is
non-empty. -/
def ExcludeToSQL (p : QuerySetImpl) (pairs : List (String × GoVal)) :
    Except String QuerySetImpl :=
  match filterHandler pairs with
  | .error e => .error e
  | .ok (sql, args) =>
    if sql = "" then .ok p
    else .ok { p with excludeCondition := p.excludeCondition ++ [⟨sql, args⟩] }

/-- WhereToSQL: set the raw override. -/
def WhereToSQL (p : QuerySetImpl) (cond : String) (args : List GoVal) : QuerySetImpl :=
  { p with whereCondition := ⟨cond, args⟩ }

/-- The concatenation loop of GetQuerySet: include fragments wrapped in
parentheses, then exclude fragments wrapped NOT ( ), each followed by
" AND ". -/
def querySetBody (p : QuerySetImpl) : String :=
  concatAll (p.filterCondition.map fun v => "(" ++ v.SQL ++ ") AND ") ++
    concatAll (p.excludeCondition.map fun v => "NOT (" ++ v.SQL ++ ") AND ")

/-- GetQuerySet: assemble the WHERE clause and its arguments. -/
def GetQuerySet (p : QuerySetImpl) : String × List GoVal :=
  if p.whereCondition.SQL ≠ "" then
    (" WHERE " ++ p.whereCondition.SQL, p.whereCondition.Args)
  else if p.filterCondition.length = 0 ∧ p.excludeCondition.length = 0 then
    ("", [])
  else
    (" WHERE " ++ goTrimSpace (goTake (querySetBody p) ((querySetBody p).length - 4)),
     (p.filterCondition.map fun v => v.Args).flatten ++
       (p.excludeCondition.map fun v => v.Args).flatten)

/-- One iteration of OrderByToSQL's loop; the Bool is the `asc` variable,
declared before the loop and never reset inside it. -/
def orderStep (st : String × Bool) (col : String) : String × Bool :=
  let sql := st.1 ++ ","
  let c := goTrimSpace col
  if goStartsWith c "-" then
    (sql ++ " `" ++ goDrop c 1 ++ "` DESC", false)
  else if st.2 then
    (sql ++ " `" ++ c ++ "` ASC", st.2)
  else
    (sql ++ " `" ++ c ++ "` DESC", st.2)

/-- OrderByToSQL: accumulate comma-prefixed order terms. -/
def OrderByToSQL (p : QuerySetImpl) (orderBy : List String) : QuerySetImpl :=
  if orderBy.length = 0 then p
  else
    let r := orderBy.foldl orderStep (p.orderBySQL, true)
    let sql := if goEndsWith r.1 "," then goTake r.1 (r.1.length - 1) else r.1
    { p with orderBySQL := sql }

/-- GetOrderBySQL. -/
def GetOrderBySQL (p : QuerySetImpl) : String :=
  if goStartsWith p.orderBySQL "," then " ORDER BY" ++ goDrop p.orderBySQL 1 else ""

/-- GetLimitSQL. -/
def GetLimitSQL (p : QuerySetImpl) : String := p.limitSQL

/-- LimitToSQL. -/
def LimitToSQL (p : QuerySetImpl) (pageSize pageNum : Int) : QuerySetImpl :=
  if pageSize > 0 ∧ pageNum > 0 then
    { p with limitSQL := " LIMIT " ++ toString pageSize ++ " OFFSET " ++ toString ((pageNum - 1) * pageSize) }
  else p

/-- SelectToSQL: replace the select list with the comma-joined columns. -/
def SelectToSQL (p : QuerySetImpl) (columns : List String) : QuerySetImpl :=
  { p with selectColumn := goJoin columns "," }

/-- GetSelectSQL. -/
def GetSelectSQL (p : QuerySetImpl) : String :=
  if p.selectColumn = "" then "*" else p.selectColumn

/-- GroupByToSQL: replace the group list with the backtick-quoted join. -/
def GroupByToSQL (p : QuerySetImpl) (groupBy : List String) : QuerySetImpl :=
  { p with groupSQL := "`" ++ goJoin groupBy "`,`" ++ "`" }

/-- GetGroupBySQL. -/
def GetGroupBySQL (p : QuerySetImpl) : String :=
  if p.groupSQL ≠ "" then " GROUP BY " ++ p.groupSQL else ""

/-- A builder call other than Where, for stating that accumulations around a
raw override are ignored by assembly. -/
inductive BuilderOp where
  | filterOp (pairs : List (String × GoVal))
  | excludeOp (pairs : List (String × GoVal))
  | orderByOp (cols : List String)
  | limitOp (pageSize pageNum : Int)
  | selectOp (cols : List String)
  | groupByOp (cols : List String)

/-- Apply one builder call to the state. -/
def applyOp (p : QuerySetImpl) : BuilderOp → Except String QuerySetImpl
  | .filterOp pairs => FilterToSQL p pairs
  | .excludeOp pairs => ExcludeToSQL p pairs
  | .orderByOp cols => .ok (OrderByToSQL p cols)
  | .limitOp a b => .ok (LimitToSQL p a b)
  | .selectOp cols => .ok (SelectToSQL p cols)
  | .groupByOp cols => .ok (GroupByToSQL p cols)

/-- Apply a sequence of builder calls. -/
def applyOps : QuerySetImpl → List BuilderOp → Except String QuerySetImpl
  | p, [] => .ok p
  | p, op :: rest =>
    match applyOp p op with
    | .error e => .error e
    | .ok q => applyOps q rest

/-- Field part of a lookup key. -/
def keyField (k : String) : String := (goSplitUU k).headD ""

/-- Operator keyword a ≤3-part lookup key selects. -/
def keyOperator (k : String) : String :=
  let fl := goSplitUU k
  if fl.length = 1 then "exact"
  else if fl.length = 2 then
    (if fl.getD 1 "" ≠ "Q" then fl.getD 1 "" else "exact")
  else fl.getD 1 ""

/-- A string free of `?` characters. -/
def noQ (s : String) : Bool := s.data.all (fun c => !(c == '?'))

/-- The per-pair arguments contributed to the argument list. -/
def pairArgs (v : GoVal) : List GoVal :=
  if isScalarKind v.kind then [v]
  else if isSliceKind v.kind then v.elems
  else []

/-- An include fragment as GetQuerySet renders it before joining. -/
def wrapInclude (v : queryFilter) : String := "(" ++ v.SQL ++ ")"

/-- An exclude fragment as GetQuerySet renders it before joining. -/
def wrapExclude (v : queryFilter) : String := "NOT (" ++ v.SQL ++ ")"

/-- Concrete accumulator state used to instantiate the assembly theorem. -/
def C6wit : QuerySetImpl :=
  { NewQuerySet with
      filterCondition := [⟨"`age`>=?", [GoVal.int 18]⟩],
      excludeCondition := [⟨"`deleted`=?", [GoVal.bool true]⟩] }

/-- Concrete state reached by Where("custom = ?", 5) followed by a Filter call. -/
def C7wit : QuerySetImpl :=
  ⟨"", ⟨"custom = ?", [GoVal.int 5]⟩, [⟨"`age`>=?", [GoVal.int 18]⟩], [], "", "", ""⟩

/-- Concrete state holding one compiled include batch. -/
def C7ctrQ : QuerySetImpl :=
  { NewQuerySet with filterCondition := [⟨"`age`>=?", [GoVal.int 18]⟩] }

/-- Side conditions under which a pair's placeholder count equals its argument
count: the field name is free of `?`, the key has at most three parts (so the
operator is the key's own, see parseKey), and a between pair supplies exactly
two elements. -/
def pairOk (kv : String × GoVal) : Bool :=
  noQ (keyField kv.1) &&
  decide ((goSplitUU kv.1).length ≤ 3) &&
  !(decide (keyOperator kv.1 = "between") && isSliceKind kv.2.kind &&
    !(decide (kv.2.elems.length = 2)))

/-! Basic facts about the string model. -/

theorem data_append (s t : String) : (s ++ t).data = s.data ++ t.data := by
  cases s; cases t; rfl

theorem strExt {s t : String} (h : s.data = t.data) : s = t :=
  congrArg String.mk h

theorem str_append_nil (s : String) : s ++ "" = s := by
  apply strExt
  simp [data_append, show ("" : String).data = [] from rfl]

theorem str_nil_append (s : String) : "" ++ s = s := by
  apply strExt
  simp [data_append, show ("" : String).data = [] from rfl]

theorem str_append_assoc (a b c : String) : a ++ b ++ c = a ++ (b ++ c) := by
  apply strExt
  simp [data_append]

theorem countQL_append (l m : List Char) :
    countQL (l ++ m) = countQL l + countQL m := by
  simp [countQL, List.filter_append]

theorem countQ_append (s t : String) : countQ (s ++ t) = countQ s + countQ t := by
  simp [countQ, data_append, countQL_append]

theorem countQ_of_noQ {s : String} (h : noQ s = true) : countQ s = 0 := by
  simp only [noQ, List.all_eq_true] at h
  have : s.data.filter (fun c => c == '?') = [] := by
    apply List.filter_eq_nil_iff.mpr
    intro c hc
    simpa using h c hc
  simp [countQ, countQL, this]

theorem countQ_OperatorSQL (s : String) : countQ (OperatorSQL s) = 0 := by
  unfold OperatorSQL operators
  simp only [List.lookup]
  repeat' split
  all_goals rfl

theorem countQ_repeatStr (s : String) (n : Nat) :
    countQ (repeatStr s n) = n * countQ s := by
  induction n with
  | zero => rw [repeatStr, Nat.zero_mul]; rfl
  | succ m ih =>
    rw [repeatStr, countQ_append, ih, Nat.succ_mul, Nat.add_comm]

theorem countQ_ANDOR (f : Nat) : countQ (ANDOR f) = 0 := by
  unfold ANDOR; split <;> rfl

theorem countQ_BLANKNOT (f : Nat) : countQ (BLANKNOT f) = 0 := by
  unfold BLANKNOT; split <;> rfl

theorem ANDOR_cases (f : Nat) : ANDOR f = "AND" ∨ ANDOR f = "OR" := by
  unfold ANDOR; split
  · exact Or.inl rfl
  · exact Or.inr rfl

theorem filter_q_dropWhile_ws (l : List Char) :
    (l.dropWhile wsChar).filter (fun c => c == '?') = l.filter (fun c => c == '?') := by
  induction l with
  | nil => rfl
  | cons c t ih =>
    by_cases h : wsChar c = true
    · have hq : (c == '?') = false := by
        cases hc : c == '?' with
        | false => rfl
        | true =>
          have : c = '?' := by simpa using hc
          subst this
          simp [wsChar] at h
      simp [List.dropWhile_cons, h, List.filter_cons, hq, ih]
    · simp [List.dropWhile_cons, h]

theorem filter_q_reverse (l : List Char) :
    l.reverse.filter (fun c => c == '?') = (l.filter (fun c => c == '?')).reverse := by
  induction l with
  | nil => rfl
  | cons c t ih =>
    by_cases h : c = '?'
    · simp [List.filter_append, List.filter_cons, h, ih]
    · simp [List.filter_append, List.filter_cons, h, ih]

theorem countQL_trimRightL (l : List Char) : countQL (trimRightL l) = countQL l := by
  unfold trimRightL
  simp [countQL, filter_q_reverse, filter_q_dropWhile_ws]

theorem countQ_goTrimSpace (s : String) : countQ (goTrimSpace s) = countQ s := by
  show countQL (trimRightL (trimLeftL s.data)) = countQL s.data
  rw [countQL_trimRightL]
  unfold trimLeftL countQL
  rw [filter_q_dropWhile_ws]

theorem dropWhile_append_ne_nil {p : Char → Bool} {l₁ : List Char} (l₂ : List Char)
    (h : l₁.dropWhile p ≠ []) :
    (l₁ ++ l₂).dropWhile p = l₁.dropWhile p ++ l₂ := by
  induction l₁ with
  | nil => simp at h
  | cons c t ih =>
    by_cases hc : p c = true
    · simp only [List.dropWhile_cons, hc, if_true] at h
      simp [List.dropWhile_cons, hc, ih h]
    · simp [List.dropWhile_cons, hc]

theorem mem_dropWhile_of_mem {c : Char} {p : Char → Bool} {l : List Char}
    (hm : c ∈ l) (hp : p c = false) : c ∈ l.dropWhile p := by
  induction l with
  | nil => cases hm
  | cons d t ih =>
    by_cases hd : p d = true
    · rcases List.mem_cons.mp hm with rfl | h
      · rw [hd] at hp; cases hp
      · simp only [List.dropWhile_cons, hd, if_true]
        exact ih h
    · simpa [List.dropWhile_cons, hd] using hm

theorem mem_trimRightL {c : Char} {l : List Char} (hm : c ∈ l) (hns : wsChar c = false) :
    c ∈ trimRightL l := by
  unfold trimRightL
  rw [List.mem_reverse]
  exact mem_dropWhile_of_mem (List.mem_reverse.mpr hm) hns

theorem trimRightL_append {x r : List Char} (c : Char) (hc : c ∈ r) (hns : wsChar c = false) :
    trimRightL (x ++ r) = x ++ trimRightL r := by
  unfold trimRightL
  have h1 : r.reverse.dropWhile wsChar ≠ [] := by
    intro h
    have := List.dropWhile_eq_nil_iff.mp h c (List.mem_reverse.mpr hc)
    rw [hns] at this; cases this
  rw [List.reverse_append, dropWhile_append_ne_nil _ h1, List.reverse_append,
    List.reverse_reverse]

theorem trimRightL_last_nonws {l : List Char} {c : Char} (h : wsChar c = false) :
    trimRightL (l ++ [c]) = l ++ [c] := by
  unfold trimRightL
  rw [List.reverse_append]
  simp [List.dropWhile_cons, h]

theorem trimLeftL_cons_nonws {l : List Char} {c : Char} (h : wsChar c = false) :
    trimLeftL (c :: l) = c :: l := by
  simp [trimLeftL, List.dropWhile_cons, h]

theorem goStartsWith_AND (R : List Char) :
    goStartsWith ⟨'A' :: 'N' :: 'D' :: R⟩ "AND" = true := by
  simp [goStartsWith, show ("AND" : String).data = ['A', 'N', 'D'] from rfl,
    List.isPrefixOf]

theorem goStartsWith_OR (R : List Char) :
    goStartsWith ⟨'O' :: 'R' :: R⟩ "OR" = true := by
  simp [goStartsWith, show ("OR" : String).data = ['O', 'R'] from rfl, List.isPrefixOf]

theorem not_goStartsWith_OR (R : List Char) :
    goStartsWith ⟨'A' :: R⟩ "OR" = false := by
  simp [goStartsWith, show ("OR" : String).data = ['O', 'R'] from rfl, List.isPrefixOf]

theorem mk_ne_empty (c : Char) (L : List Char) : (⟨c :: L⟩ : String) ≠ "" := by
  intro h
  have := congrArg String.data h
  simp [show ("" : String).data = [] from rfl] at this

theorem splitUU_ne_nil (l : List Char) : splitUU l ≠ [] := by
  rw [splitUU.eq_def]
  split
  · simp
  · simp
  · split <;> simp

theorem goSplitUU_ne_nil (k : String) : goSplitUU k ≠ [] := by
  unfold goSplitUU
  simp only [ne_eq, List.map_eq_nil_iff]
  exact splitUU_ne_nil _

/-! Analysis of the lookup-key parse. -/

theorem parseKey_ok_le3 {pOp : String} {pFl : Nat} {k f o : String} {fl : Nat}
    (hlen : (goSplitUU k).length ≤ 3)
    (h : parseKey pOp pFl k = .ok (f, o, fl)) :
    f = keyField k ∧ o = keyOperator k := by
  simp only [parseKey] at h
  unfold keyField keyOperator
  split at h
  · next h1 =>
    simp only [Except.ok.injEq, Prod.mk.injEq] at h
    refine ⟨h.1.symm, ?_⟩
    rw [if_pos h1]
    exact h.2.1.symm
  · split at h
    · split at h
      · next h1 h2 h3 =>
        simp only [Except.ok.injEq, Prod.mk.injEq] at h
        refine ⟨h.1.symm, ?_⟩
        rw [if_neg h1, if_pos h2, if_pos h3]
        exact h.2.1.symm
      · next h1 h2 h3 =>
        simp only [Except.ok.injEq, Prod.mk.injEq] at h
        refine ⟨h.1.symm, ?_⟩
        rw [if_neg h1, if_pos h2, if_neg h3]
        exact h.2.1.symm
    · split at h
      · split at h
        · next h1 h2 h3 h4 =>
          simp only [Except.ok.injEq, Prod.mk.injEq] at h
          refine ⟨h.1.symm, ?_⟩
          rw [if_neg h1, if_neg h2]
          exact h.2.1.symm
        · cases h
      · next h1 h2 h3 =>
        exfalso
        have h0 : (goSplitUU k).length ≠ 0 := by
          simp only [ne_eq, List.length_eq_zero]
          exact goSplitUU_ne_nil k
        omega

theorem pairOk_unpack {k : String} {v : GoVal} (hok : pairOk (k, v) = true) :
    noQ (keyField k) = true ∧ (goSplitUU k).length ≤ 3 ∧
      (keyOperator k = "between" → isSliceKind v.kind = true → v.elems.length = 2) := by
  unfold pairOk at hok
  rw [Bool.and_eq_true, Bool.and_eq_true] at hok
  obtain ⟨⟨hA, hB⟩, hC⟩ := hok
  refine ⟨hA, by simpa using hB, ?_⟩
  intro hop hsl
  rw [Bool.not_eq_true'] at hC
  rw [hsl] at hC
  simp [hop] at hC
  exact hC

theorem head?_append_of_head? {c : Char} {l₁ : List Char} (l₂ : List Char)
    (h : l₁.head? = some c) : (l₁ ++ l₂).head? = some c := by
  cases l₁ with
  | nil => cases h
  | cons a t =>
    simp only [List.head?_cons, Option.some.injEq] at h
    simp [h]

/-! Per-iteration specification of the filter compiler: each successful step
appends one combinator-prefixed fragment (starting with a space) whose
placeholder count equals the number of arguments it contributes. -/

theorem filterStep_ok {st : LoopState} {k : String} {v : GoVal} {st' : LoopState}
    (hok : pairOk (k, v) = true)
    (h : filterStep st k v = .ok st') :
    ∃ frag : String,
      st'.sql = st.sql ++ (ANDOR st'.flag ++ frag)
      ∧ st'.args = st.args ++ pairArgs v
      ∧ countQ frag = (pairArgs v).length
      ∧ '?' ∈ frag.data
      ∧ frag.data.head? = some ' ' := by
  obtain ⟨hnq, hlen, hbtw⟩ := pairOk_unpack hok
  have hkf : countQ (keyField k) = 0 := countQ_of_noQ hnq
  simp only [filterStep] at h
  split at h
  · cases h
  · next f o fl hp =>
    obtain ⟨hf, ho⟩ := parseKey_ok_le3 hlen hp
    split at h
    · next hs =>
      split at h
      · cases h
      · simp only [Except.ok.injEq] at h
        subst h
        refine ⟨" `" ++ f ++ "`" ++ OperatorSQL o ++ "? ", ?_, ?_, ?_, ?_, ?_⟩
        · show st.sql ++ ANDOR fl ++ " `" ++ f ++ "`" ++ OperatorSQL o ++ "? " = _
          simp [str_append_assoc]
        · simp [pairArgs, hs]
        · simp only [countQ_append, hf, hkf, countQ_OperatorSQL]
          simp [pairArgs, hs, show countQ " `" = 0 from rfl, show countQ "`" = 0 from rfl,
            show countQ "? " = 1 from rfl]
        · have hq : '?' ∈ ("? " : String).data := by decide
          rw [data_append]
          exact List.mem_append.mpr (Or.inr hq)
        · repeat' (rw [data_append]; apply head?_append_of_head?)
          decide
    · next hs =>
      split at h
      · next hsl =>
        split at h
        · cases h
        · next hne0 =>
          split at h
          · cases h
          · next hkb =>
            split at h
            · next hops =>
              simp only [Except.ok.injEq] at h
              subst h
              refine ⟨" ( " ++ f ++ " " ++ OperatorSQL o ++ " ?" ++
                  repeatStr (" " ++ ANDOR fl ++ " " ++ f ++ " " ++ OperatorSQL o ++ " ?")
                    (v.elems.length - 1) ++ " ) ", ?_, ?_, ?_, ?_, ?_⟩
              · show st.sql ++ ANDOR fl ++ " ( " ++ f ++ " " ++ OperatorSQL o ++ " ?" ++
                    repeatStr _ _ ++ " ) " = _
                simp [str_append_assoc]
              · simp [pairArgs, hs, hsl]
              · simp only [countQ_append, countQ_repeatStr, hf, hkf, countQ_OperatorSQL,
                  countQ_ANDOR, countQ_BLANKNOT]
                simp only [pairArgs, hs, hsl]
                simp [show countQ " ( " = 0 from rfl, show countQ " " = 0 from rfl,
                  show countQ " ?" = 1 from rfl, show countQ " ) " = 0 from rfl]
                omega
              · have hq : '?' ∈ (" ?" : String).data := by decide
                rw [data_append, data_append]
                exact List.mem_append.mpr (Or.inl (List.mem_append.mpr (Or.inl
                  (by rw [data_append]; exact List.mem_append.mpr (Or.inr hq)))))
              · repeat' (rw [data_append]; apply head?_append_of_head?)
                decide
            · split at h
              · next hopin =>
                simp only [Except.ok.injEq] at h
                subst h
                refine ⟨" " ++ f ++ " " ++ BLANKNOT fl ++ " " ++ OperatorSQL o ++ " (?" ++
                    repeatStr ",?" (v.elems.length - 1) ++ ") ", ?_, ?_, ?_, ?_, ?_⟩
                · show st.sql ++ ANDOR fl ++ " " ++ f ++ " " ++ BLANKNOT fl ++ " " ++
                      OperatorSQL o ++ " (?" ++ repeatStr _ _ ++ ") " = _
                  simp [str_append_assoc]
                · simp [pairArgs, hs, hsl]
                · simp only [countQ_append, countQ_repeatStr, hf, hkf, countQ_OperatorSQL,
                    countQ_BLANKNOT]
                  simp only [pairArgs, hs, hsl]
                  simp [show countQ " " = 0 from rfl, show countQ " (?" = 1 from rfl,
                    show countQ ",?" = 1 from rfl, show countQ ") " = 0 from rfl]
                  omega
                · have hq : '?' ∈ (" (?" : String).data := by decide
                  rw [data_append, data_append]
                  exact List.mem_append.mpr (Or.inl (List.mem_append.mpr (Or.inl
                    (by rw [data_append]; exact List.mem_append.mpr (Or.inr hq)))))
                · repeat' (rw [data_append]; apply head?_append_of_head?)
                  decide
              · split at h
                · next hopb =>
                  simp only [Except.ok.injEq] at h
                  subst h
                  have hn2 : v.elems.length = 2 := hbtw (ho ▸ hopb) hsl
                  refine ⟨" " ++ f ++ " " ++ BLANKNOT fl ++ " " ++ OperatorSQL o ++ " ? AND ? ",
                    ?_, ?_, ?_, ?_, ?_⟩
                  · show st.sql ++ ANDOR fl ++ " " ++ f ++ " " ++ BLANKNOT fl ++ " " ++
                        OperatorSQL o ++ " ? AND ? " = _
                    simp [str_append_assoc]
                  · simp [pairArgs, hs, hsl]
                  · simp only [countQ_append, hf, hkf, countQ_OperatorSQL, countQ_BLANKNOT]
                    simp only [pairArgs, hs, hsl]
                    simp [show countQ " " = 0 from rfl, show countQ " ? AND ? " = 2 from rfl, hn2]
                  · have hq : '?' ∈ (" ? AND ? " : String).data := by decide
                    rw [data_append]
                    exact List.mem_append.mpr (Or.inr hq)
                  · repeat' (rw [data_append]; apply head?_append_of_head?)
                    decide
                · cases h
      · cases h

theorem countQL_cons_nonq {c : Char} (l : List Char) (h : (c == '?') = false) :
    countQL (c :: l) = countQL l := by
  simp [countQL, List.filter_cons, h]

/-- Loop invariant of filterHandler: the SQL grows by appending, argument
lists concatenate in input order, the appended text has exactly as many
placeholders as arguments were appended, and (for a non-empty batch) it
starts with a combinator keyword followed by a space. -/
theorem filterLoop_ok :
    ∀ (pairs : List (String × GoVal)) (st st' : LoopState),
      pairs.all pairOk = true →
      filterLoop pairs st = .ok st' →
      ∃ δ : String,
        st'.sql = st.sql ++ δ
        ∧ st'.args = st.args ++ (pairs.map (fun kv => pairArgs kv.2)).flatten
        ∧ countQ δ = ((pairs.map (fun kv => pairArgs kv.2)).flatten).length
        ∧ (pairs ≠ [] →
            ∃ (g : String) (rD : List Char),
              (g = "AND" ∨ g = "OR") ∧ δ.data = g.data ++ (' ' :: rD) ∧ '?' ∈ rD) := by
  intro pairs
  induction pairs with
  | nil =>
    intro st st' _ h
    simp only [filterLoop, Except.ok.injEq] at h
    subst h
    refine ⟨"", (str_append_nil _).symm, by simp, rfl, ?_⟩
    intro hc; cases hc rfl
  | cons kv rest ih =>
    intro st st' hall h
    obtain ⟨k, v⟩ := kv
    rw [List.all_cons, Bool.and_eq_true] at hall
    obtain ⟨h1, h2⟩ := hall
    simp only [filterLoop] at h
    split at h
    · cases h
    · next st1 hstep =>
      obtain ⟨frag, hsql, hargs, hcnt, hqm, hhead⟩ := filterStep_ok h1 hstep
      obtain ⟨δ2, hsql2, hargs2, hcnt2, _⟩ := ih st1 st' h2 h
      obtain ⟨t, hfrag⟩ : ∃ t, frag.data = ' ' :: t := by
        cases hd : frag.data with
        | nil => rw [hd] at hhead; cases hhead
        | cons c u =>
          rw [hd] at hhead
          simp only [List.head?_cons, Option.some.injEq] at hhead
          exact ⟨u, by rw [hhead]⟩
      refine ⟨(ANDOR st1.flag ++ frag) ++ δ2, ?_, ?_, ?_, ?_⟩
      · rw [hsql2, hsql, str_append_assoc]
      · rw [hargs2, hargs]
        simp [List.append_assoc]
      · rw [countQ_append, countQ_append, countQ_ANDOR, hcnt, hcnt2]
        simp
      · intro _
        refine ⟨ANDOR st1.flag, t ++ δ2.data, ANDOR_cases st1.flag, ?_, ?_⟩
        · rw [data_append, data_append, hfrag]
          simp
        · have hqt : '?' ∈ t := by
            rw [hfrag] at hqm
            rcases List.mem_cons.mp hqm with hc | hc
            · cases hc
            · exact hc
          exact List.mem_append.mpr (Or.inl hqt)

theorem goTrimSpace_AND {s : String} {rD : List Char}
    (hdata : s.data = 'A' :: 'N' :: 'D' :: ' ' :: rD) (hq : '?' ∈ rD) :
    goTrimSpace s = ⟨'A' :: 'N' :: 'D' :: ' ' :: trimRightL rD⟩ := by
  unfold goTrimSpace
  rw [hdata, trimLeftL_cons_nonws (by decide)]
  have h1 : ('A' :: 'N' :: 'D' :: ' ' :: rD) = ['A', 'N', 'D', ' '] ++ rD := by simp
  rw [h1, trimRightL_append '?' hq (by decide)]
  exact congrArg String.mk (by simp)

theorem goTrimSpace_OR {s : String} {rD : List Char}
    (hdata : s.data = 'O' :: 'R' :: ' ' :: rD) (hq : '?' ∈ rD) :
    goTrimSpace s = ⟨'O' :: 'R' :: ' ' :: trimRightL rD⟩ := by
  unfold goTrimSpace
  rw [hdata, trimLeftL_cons_nonws (by decide)]
  have h1 : ('O' :: 'R' :: ' ' :: rD) = ['O', 'R', ' '] ++ rD := by simp
  rw [h1, trimRightL_append '?' hq (by decide)]
  exact congrArg String.mk (by simp)

/-- Claim C1 (amended): for a successfully compiled batch whose keys have at
most three parts, `?`-free field names, and whose between-pairs supply exactly
two elements, placeholder count equals argument count and the argument list is
the per-pair values in input order. -/
theorem C1_amended (pairs : List (String × GoVal)) (sql : String) (args : List GoVal)
    (hok : pairs.all pairOk = true)
    (h : filterHandler pairs = .ok (sql, args)) :
    countQ sql = args.length ∧ args = (pairs.map (fun kv => pairArgs kv.2)).flatten := by
  unfold filterHandler at h
  by_cases hz : pairs.length = 0
  · rw [if_pos hz] at h
    have hp0 : pairs = [] := List.length_eq_zero.mp hz
    subst hp0
    simp only [Except.ok.injEq, Prod.mk.injEq] at h
    obtain ⟨h1, h2⟩ := h
    rw [← h1, ← h2]
    exact ⟨rfl, rfl⟩
  · rw [if_neg hz] at h
    have hne : pairs ≠ [] := fun hc => hz (by simp [hc])
    cases hL : filterLoop pairs ⟨"", "", 0, "", []⟩ with
    | error e => rw [hL] at h; cases h
    | ok st =>
      obtain ⟨δ, hsql, hargs, hcnt, hshape⟩ := filterLoop_ok pairs _ st hok hL
      obtain ⟨g, rD, hg, hδ, hq⟩ := hshape hne
      have hsqlδ : st.sql = δ := by rw [hsql]; exact str_nil_append δ
      have hargs' : st.args = (pairs.map (fun kv => pairArgs kv.2)).flatten := by
        simpa using hargs
      have hcntδ : countQL rD = ((pairs.map (fun kv => pairArgs kv.2)).flatten).length := by
        have e1 : countQ δ = countQL g.data + countQL (' ' :: rD) := by
          show countQL δ.data = _
          rw [hδ, countQL_append]
        rw [countQL_cons_nonq rD (by decide)] at e1
        have e2 : countQL g.data = 0 := by
          rcases hg with hg | hg <;> rw [hg] <;> rfl
        rw [e2, Nat.zero_add] at e1
        rw [← e1]
        exact hcnt
      simp only [hL] at h
      rcases hg with hg | hg
      · have hdata : st.sql.data = 'A' :: 'N' :: 'D' :: ' ' :: rD := by
          rw [hsqlδ, hδ, hg]
          rfl
        rw [goTrimSpace_AND hdata hq] at h
        rw [if_neg (mk_ne_empty _ _)] at h
        rw [not_goStartsWith_OR] at h
        rw [goStartsWith_AND] at h
        simp only [Bool.false_eq_true, if_false, if_true] at h
        simp only [Except.ok.injEq, Prod.mk.injEq] at h
        obtain ⟨h1, h2⟩ := h
        rw [← h1, ← h2, hargs']
        refine ⟨?_, rfl⟩
        show countQL (List.drop 4 ('A' :: 'N' :: 'D' :: ' ' :: trimRightL rD)) = _
        rw [List.drop_succ_cons, List.drop_succ_cons, List.drop_succ_cons,
          List.drop_succ_cons, List.drop_zero, countQL_trimRightL, hcntδ]
      · have hdata : st.sql.data = 'O' :: 'R' :: ' ' :: rD := by
          rw [hsqlδ, hδ, hg]
          rfl
        rw [goTrimSpace_OR hdata hq] at h
        rw [if_neg (mk_ne_empty _ _)] at h
        rw [goStartsWith_OR] at h
        simp only [if_true] at h
        simp only [Except.ok.injEq, Prod.mk.injEq] at h
        obtain ⟨h1, h2⟩ := h
        rw [← h1, ← h2, hargs']
        refine ⟨?_, rfl⟩
        show countQL (List.drop 3 ('O' :: 'R' :: ' ' :: trimRightL rD)) = _
        rw [List.drop_succ_cons, List.drop_succ_cons, List.drop_succ_cons,
          List.drop_zero, countQL_trimRightL, hcntδ]

/-- Claim C1, counterexample: a `between` filter over a three-element
collection compiles successfully with two placeholders but three arguments. -/
theorem C1_counterexample :
    filterHandler [("price__between", GoVal.slice [GoVal.int 10, GoVal.int 20, GoVal.int 30])] =
      .ok ("price  BETWEEN ? AND ?", [GoVal.int 10, GoVal.int 20, GoVal.int 30]) ∧
    countQ "price  BETWEEN ? AND ?" = 2 ∧
    ([GoVal.int 10, GoVal.int 20, GoVal.int 30] : List GoVal).length = 3 :=
  ⟨rfl, rfl, rfl⟩

/-- Claim C1, witness: the amended theorem applied to a two-element between
batch. -/
theorem C1_witness :
    countQ "price  BETWEEN ? AND ?" =
      ([GoVal.int 10, GoVal.int 20] : List GoVal).length ∧
    ([GoVal.int 10, GoVal.int 20] : List GoVal) =
      (([("price__between", GoVal.slice [GoVal.int 10, GoVal.int 20])] :
          List (String × GoVal)).map (fun kv => pairArgs kv.2)).flatten :=
  C1_amended [("price__between", GoVal.slice [GoVal.int 10, GoVal.int 20])]
    "price  BETWEEN ? AND ?" [GoVal.int 10, GoVal.int 20] rfl rfl

/-- Claim C2: an unrecognized lookup keyword does not fail; the mysql
OperatorSQL map lookup returns the empty string and filterHandler embeds it,
yielding a fragment with no operator at all. -/
theorem C2_code_eval :
    OperatorSQL "foo" = "" ∧
    filterHandler [("age__foo", GoVal.int 18)] = .ok ("`age`?", [GoVal.int 18]) :=
  ⟨rfl, rfl⟩

/-- Claim C3: each operator/value incompatibility aborts compilation through
the log.Panicf sites of filterHandler (modelled as Except.error carrying the
panic message), and FilterToSQL propagates the abort instead of appending a
fragment. -/
theorem C3_code_eval :
    filterHandler [("age__in", GoVal.int 5)] =
      .error "Operator [in] must be used with slice or array." ∧
    filterHandler [("age__in", GoVal.slice [])] =
      .error "Empty slice or array for key [age__in]." ∧
    filterHandler [("age__gt", GoVal.slice [GoVal.int 1])] =
      .error "Unsupported slice operator [gt]." ∧
    filterHandler [("tags__exact", GoVal.slice [GoVal.mk .kMap "" []])] =
      .error "Unsupported slice type [map] for key [tags__exact]." ∧
    filterHandler [("bad", GoVal.mk .kFunc "" [])] =
      .error "Unsupported data type [func] for key [bad]." ∧
    FilterToSQL NewQuerySet [("age__in", GoVal.int 5)] =
      .error "Operator [in] must be used with slice or array." :=
  ⟨rfl, rfl, rfl, rfl, rfl, rfl⟩

/-- Claim C5 (amended): splitting a key on `__` yields: one part → exact/AND;
two parts → the named operator with AND, or exact/OR when the part is `Q`;
three parts ending in `Q` → the named operator with OR; three parts not
ending in `Q` → the malformed-key panic; more than three parts → NOT an
error: the field is the first part and the operator and combinator flag are
carried over unchanged from the previous pair. -/
theorem C5_amended (prevOp : String) (prevFlag : Nat) (key : String) :
    (∀ f, goSplitUU key = [f] →
      parseKey prevOp prevFlag key = .ok (f, "exact", 0)) ∧
    (∀ f o, goSplitUU key = [f, o] → o ≠ "Q" →
      parseKey prevOp prevFlag key = .ok (f, o, 0)) ∧
    (∀ f, goSplitUU key = [f, "Q"] →
      parseKey prevOp prevFlag key = .ok (f, "exact", 1)) ∧
    (∀ f o, goSplitUU key = [f, o, "Q"] →
      parseKey prevOp prevFlag key = .ok (f, o, 1)) ∧
    (∀ f o t, goSplitUU key = [f, o, t] → t ≠ "Q" →
      parseKey prevOp prevFlag key = .error ("FieldLookups [" ++ key ++ "] is invalid.")) ∧
    (∀ f rest, goSplitUU key = f :: rest → 3 ≤ rest.length →
      parseKey prevOp prevFlag key = .ok (f, prevOp, prevFlag)) := by
  refine ⟨?_, ?_, ?_, ?_, ?_, ?_⟩
  · intro f hs
    simp [parseKey, hs]
  · intro f o hs ho
    simp [parseKey, hs, ho]
  · intro f hs
    simp [parseKey, hs]
  · intro f o hs
    simp [parseKey, hs]
  · intro f o t hs ht
    simp [parseKey, hs, ht]
  · intro f rest hs hlen
    simp only [parseKey, hs]
    rw [if_neg (fun hc => by rw [List.length_cons] at hc; omega),
      if_neg (fun hc => by rw [List.length_cons] at hc; omega),
      if_neg (fun hc => by rw [List.length_cons] at hc; omega)]
    rfl

/-- Claim C5, counterexample: a four-part key does not fail; it is compiled
using the stale (initially empty) operator, producing the fragment with no
operator text. -/
theorem C5_counterexample :
    filterHandler [("a__b__c__d", GoVal.int 1)] = .ok ("`a`?", [GoVal.int 1]) := rfl

/-- Claim C5, witness: the amended parse behavior at concrete keys. -/
theorem C5_witness :
    parseKey "" 0 "a__b__c__d" = .ok ("a", "", 0) ∧
    parseKey "" 0 "age__gte" = .ok ("age", "gte", 0) :=
  ⟨(C5_amended "" 0 "a__b__c__d").2.2.2.2.2 "a" ["b", "c", "d"] rfl (by decide),
   (C5_amended "" 0 "age__gte").2.1 "age" "gte" rfl (by decide)⟩

/-- Claim C8: once a descending column is seen, the `asc` loop variable is
never reset, so every later column of the same call is also rendered DESC,
even without a leading `-`; a lone `-`-less column still renders ASC. -/
theorem C8_code_eval :
    (OrderByToSQL NewQuerySet ["-created_at", "name"]).orderBySQL =
      ", `created_at` DESC, `name` DESC" ∧
    GetOrderBySQL (OrderByToSQL NewQuerySet ["-created_at", "name"]) =
      " ORDER BY `created_at` DESC, `name` DESC" ∧
    GetOrderBySQL (OrderByToSQL NewQuerySet ["name"]) = " ORDER BY `name` ASC" ∧
    GetOrderBySQL (OrderByToSQL NewQuerySet []) = "" :=
  ⟨rfl, rfl, rfl, rfl⟩

/-- Claim C9: GroupByToSQL with an empty column list sets the group text to
two bare backticks, so GetGroupBySQL emits a clause with an empty quoted
identifier instead of no clause; a later call still replaces entirely. -/
theorem C9_code_eval :
    (GroupByToSQL NewQuerySet []).groupSQL = "``" ∧
    GetGroupBySQL (GroupByToSQL NewQuerySet []) = " GROUP BY ``" ∧
    GetGroupBySQL (GroupByToSQL (GroupByToSQL NewQuerySet ["a"]) ["b", "c"]) =
      " GROUP BY `b`,`c`" ∧
    GetGroupBySQL NewQuerySet = "" :=
  ⟨rfl, rfl, rfl, rfl⟩

/-- Claim C10: an empty raw-override condition is ignored at assembly time;
GetQuerySet behaves exactly as if no override had been set. -/
theorem C10_empty_where (p : QuerySetImpl) (args : List GoVal) :
    GetQuerySet (WhereToSQL p "" args) =
      GetQuerySet { p with whereCondition := ⟨"", []⟩ } := by
  simp [GetQuerySet, WhereToSQL, querySetBody]

theorem applyOp_preserves_where (p : QuerySetImpl) (op : BuilderOp) (q : QuerySetImpl)
    (h : applyOp p op = .ok q) : q.whereCondition = p.whereCondition := by
  cases op with
  | filterOp pairs =>
    simp only [applyOp, FilterToSQL] at h
    split at h
    · cases h
    · split at h <;> (simp only [Except.ok.injEq] at h; subst h; rfl)
  | excludeOp pairs =>
    simp only [applyOp, ExcludeToSQL] at h
    split at h
    · cases h
    · split at h <;> (simp only [Except.ok.injEq] at h; subst h; rfl)
  | orderByOp cols =>
    simp only [applyOp, Except.ok.injEq] at h
    subst h
    unfold OrderByToSQL
    split <;> rfl
  | limitOp a b =>
    simp only [applyOp, Except.ok.injEq] at h
    subst h
    unfold LimitToSQL
    split <;> rfl
  | selectOp cols =>
    simp only [applyOp, Except.ok.injEq] at h
    subst h
    rfl
  | groupByOp cols =>
    simp only [applyOp, Except.ok.injEq] at h
    subst h
    rfl

theorem applyOps_preserves_where :
    ∀ (ops : List BuilderOp) (p q : QuerySetImpl),
      applyOps p ops = .ok q → q.whereCondition = p.whereCondition := by
  intro ops
  induction ops with
  | nil =>
    intro p q h
    simp only [applyOps, Except.ok.injEq] at h
    subst h
    rfl
  | cons op rest ih =>
    intro p q h
    simp only [applyOps] at h
    split at h
    · cases h
    · next q1 hop =>
      rw [ih q1 q h, applyOp_preserves_where p op q1 hop]

/-- Claim C7 (amended): after Where is called with a NON-EMPTY condition,
assembly returns " WHERE " ++ cond with exactly the supplied arguments, and no
Filter/Exclude/OrderBy/Limit/Select/GroupBy call made before (arbitrary prior
state p) or after (arbitrary op list) contributes to the result. -/
theorem C7_amended (p : QuerySetImpl) (cond : String) (args : List GoVal)
    (ops : List BuilderOp) (q : QuerySetImpl)
    (hc : cond ≠ "")
    (h : applyOps (WhereToSQL p cond args) ops = .ok q) :
    GetQuerySet q = (" WHERE " ++ cond, args) := by
  have hw : q.whereCondition = ⟨cond, args⟩ := by
    rw [applyOps_preserves_where ops _ q h]
    rfl
  simp [GetQuerySet, hw, hc]

/-- Claim C7, witness: Where("custom = ?", 5) followed by a Filter call still
assembles to the raw override alone. -/
theorem C7_witness : GetQuerySet C7wit = (" WHERE custom = ?", [GoVal.int 5]) :=
  C7_amended NewQuerySet "custom = ?" [GoVal.int 5]
    [BuilderOp.filterOp [("age__gte", GoVal.int 18)]] C7wit (by decide) rfl

/-- Claim C7, counterexample: with the EMPTY condition string, the raw
override is ignored at assembly and the Filter fragment wins, so the claim as
stated ("any condition") fails. -/
theorem C7_counterexample :
    FilterToSQL NewQuerySet [("age__gte", GoVal.int 18)] = .ok C7ctrQ ∧
    GetQuerySet (WhereToSQL C7ctrQ "" [GoVal.int 5]) =
      (" WHERE (`age`>=?)", [GoVal.int 18]) ∧
    GetQuerySet (WhereToSQL C7ctrQ "" [GoVal.int 5]) ≠ (" WHERE ", [GoVal.int 5]) := by
  refine ⟨rfl, rfl, ?_⟩
  intro hcontra
  rw [show GetQuerySet (WhereToSQL C7ctrQ "" [GoVal.int 5]) =
      ((" WHERE (`age`>=?)" : String), ([GoVal.int 18] : List GoVal)) from rfl] at hcontra
  have hfst := congrArg Prod.fst hcontra
  simp at hfst

/-! Payload independence: erasing every scalar payload changes only the
argument list, never the SQL text or the error behavior. -/

theorem stripLits_kind (v : GoVal) : (stripLits v).kind = v.kind := by
  cases v; rfl

theorem stripListOfVals_eq_map :
    ∀ l : List GoVal, stripListOfVals l = l.map stripLits := by
  intro l
  induction l with
  | nil => rfl
  | cons v vs ih => simp [stripListOfVals, ih]

theorem filterStep_strip (st : LoopState) (k : String) (v : GoVal) :
    filterStep { st with args := st.args.map stripLits } k (stripLits v) =
      (filterStep st k v).map (fun s => { s with args := s.args.map stripLits }) := by
  obtain ⟨fn, op0, fl0, sql0, args0⟩ := st
  obtain ⟨kd, lit, es⟩ := v
  simp only [filterStep, stripLits]
  simp only [show (GoVal.mk kd "" (stripListOfVals es)).kind = kd from rfl,
    show (GoVal.mk kd lit es).kind = kd from rfl,
    show (GoVal.mk kd "" (stripListOfVals es)).elems = stripListOfVals es from rfl,
    show (GoVal.mk kd lit es).elems = es from rfl]
  cases hp : parseKey op0 fl0 k with
  | error e => rfl
  | ok t =>
    obtain ⟨f, o, fl⟩ := t
    simp only [hp]
    simp only [stripListOfVals_eq_map, List.length_map]
    by_cases hs : isScalarKind kd = true
    · rw [if_pos hs, if_pos hs]
      by_cases hio : o = "in" ∨ o = "between"
      · rw [if_pos hio, if_pos hio]; rfl
      · rw [if_neg hio, if_neg hio]
        simp [Except.map, List.map_append, stripLits, stripListOfVals_eq_map]
    · rw [if_neg hs, if_neg hs]
      by_cases hsl : isSliceKind kd = true
      · rw [if_pos hsl, if_pos hsl]
        by_cases hlen0 : es.length = 0
        · rw [if_pos hlen0, if_pos hlen0]; rfl
        · rw [if_neg hlen0, if_neg hlen0]
          have hk0 : ((es.map stripLits).headD
                (GoVal.mk kd "" (es.map stripLits))).kind
              = (es.headD (GoVal.mk kd lit es)).kind := by
            cases es with
            | nil => rfl
            | cons e es2 => simp [stripLits_kind]
          rw [hk0]
          by_cases hkb : isBannedElemKind (es.headD (GoVal.mk kd lit es)).kind = true
          · rw [if_pos hkb, if_pos hkb]; rfl
          · rw [if_neg hkb, if_neg hkb]
            by_cases hop1 : o = "exact" ∨ o = "exclude" ∨ o = "contains" ∨ o = "icontains"
            · rw [if_pos hop1, if_pos hop1]
              simp [Except.map, List.map_append]
            · rw [if_neg hop1, if_neg hop1]
              by_cases hop2 : o = "in"
              · rw [if_pos hop2, if_pos hop2]
                simp [Except.map, List.map_append]
              · rw [if_neg hop2, if_neg hop2]
                by_cases hop3 : o = "between"
                · rw [if_pos hop3, if_pos hop3]
                  simp [Except.map, List.map_append]
                · rw [if_neg hop3, if_neg hop3]; rfl
      · rw [if_neg hsl, if_neg hsl]; rfl

theorem filterLoop_strip :
    ∀ (pairs : List (String × GoVal)) (st : LoopState),
      filterLoop (pairs.map (fun kv => (kv.1, stripLits kv.2)))
          { st with args := st.args.map stripLits } =
        (filterLoop pairs st).map (fun s => { s with args := s.args.map stripLits }) := by
  intro pairs
  induction pairs with
  | nil => intro st; rfl
  | cons kv rest ih =>
    intro st
    obtain ⟨k, v⟩ := kv
    simp only [List.map_cons, filterLoop]
    rw [filterStep_strip]
    cases hstep : filterStep st k v with
    | error e => simp [Except.map]
    | ok st1 =>
      simp only [Except.map]
      exact ih st1

theorem filterHandler_strip (pairs : List (String × GoVal)) :
    filterHandler (pairs.map (fun kv => (kv.1, stripLits kv.2))) =
      (filterHandler pairs).map (fun r => (r.1, r.2.map stripLits)) := by
  have hloop : filterLoop (pairs.map (fun kv => (kv.1, stripLits kv.2)))
        ⟨"", "", 0, "", []⟩ =
      (filterLoop pairs ⟨"", "", 0, "", []⟩).map
        (fun s => { s with args := s.args.map stripLits }) :=
    filterLoop_strip pairs ⟨"", "", 0, "", []⟩
  unfold filterHandler
  rw [List.length_map]
  by_cases hz : pairs.length = 0
  · rw [if_pos hz, if_pos hz]
    rfl
  · rw [if_neg hz, if_neg hz]
    rw [hloop]
    cases hL : filterLoop pairs ⟨"", "", 0, "", []⟩ with
    | error e => simp [Except.map]
    | ok st =>
      simp only [Except.map]
      by_cases h1 : goTrimSpace st.sql = ""
      · simp [h1, Except.map]
      · by_cases h2 : goStartsWith (goTrimSpace st.sql) "OR" = true
        · simp [h1, h2, Except.map]
        · by_cases h3 : goStartsWith (goTrimSpace st.sql) "AND" = true
          · simp [h1, h2, h3, Except.map]
          · simp [h1, h2, h3, Except.map]

theorem scalar_not_slice (kd : Kind) (h : isScalarKind kd = true) :
    isSliceKind kd = false := by
  cases kd <;> revert h <;> decide

/-- Exact shape of every successful filterStep: the scalar branch emits the
backtick-quoted column, and each of the six collection operators emits the
bare (unquoted) column name. -/
theorem filterStep_shape (st : LoopState) (k : String) (v : GoVal) (st' : LoopState)
    (f o : String) (fl : Nat)
    (hp : parseKey st.operator st.flag k = .ok (f, o, fl))
    (h : filterStep st k v = .ok st') :
    (isScalarKind v.kind = true →
      st'.sql = st.sql ++ ANDOR fl ++ " `" ++ f ++ "`" ++ OperatorSQL o ++ "? ") ∧
    (isSliceKind v.kind = true →
      ((o = "exact" ∨ o = "exclude" ∨ o = "contains" ∨ o = "icontains") →
        st'.sql = st.sql ++ ANDOR fl ++ " ( " ++ f ++ " " ++ OperatorSQL o ++ " ?" ++
          repeatStr (" " ++ ANDOR fl ++ " " ++ f ++ " " ++ OperatorSQL o ++ " ?")
            (v.elems.length - 1) ++ " ) ") ∧
      (o = "in" →
        st'.sql = st.sql ++ ANDOR fl ++ " " ++ f ++ " " ++ BLANKNOT fl ++ " " ++
          OperatorSQL o ++ " (?" ++ repeatStr ",?" (v.elems.length - 1) ++ ") ") ∧
      (o = "between" →
        st'.sql = st.sql ++ ANDOR fl ++ " " ++ f ++ " " ++ BLANKNOT fl ++ " " ++
          OperatorSQL o ++ " ? AND ? ")) := by
  simp only [filterStep, hp] at h
  split at h
  · next hs =>
    split at h
    · cases h
    · simp only [Except.ok.injEq] at h
      subst h
      constructor
      · intro _
        rfl
      · intro hsl
        rw [scalar_not_slice v.kind hs] at hsl
        cases hsl
  · next hs =>
    split at h
    · next hsl =>
      split at h
      · cases h
      · split at h
        · cases h
        · split at h
          · next hops =>
            simp only [Except.ok.injEq] at h
            subst h
            refine ⟨fun hsc => absurd hsc hs, fun _ => ⟨fun _ => rfl, ?_, ?_⟩⟩
            · intro hin
              rcases hops with h4 | h4 | h4 | h4 <;>
                (rw [hin] at h4; exact absurd h4 (by decide))
            · intro hbt
              rcases hops with h4 | h4 | h4 | h4 <;>
                (rw [hbt] at h4; exact absurd h4 (by decide))
          · next hnops =>
            split at h
            · next hoin =>
              simp only [Except.ok.injEq] at h
              subst h
              refine ⟨fun hsc => absurd hsc hs,
                fun _ => ⟨fun h4 => absurd h4 hnops, fun _ => rfl, ?_⟩⟩
              intro hbt
              exact absurd (hbt.symm.trans hoin) (by decide)
            · next hnin =>
              split at h
              · next hobt =>
                simp only [Except.ok.injEq] at h
                subst h
                exact ⟨fun hsc => absurd hsc hs,
                  fun _ => ⟨fun h4 => absurd h4 hnops, fun h4 => absurd h4 hnin,
                    fun _ => rfl⟩⟩
              · cases h
    · cases h

/-- Every character of the joined select list comes from a column name or
from the comma separator: SelectToSQL introduces no quoting of its own. -/
theorem goJoin_chars :
    ∀ (cols : List String) (c : Char), c ∈ (goJoin cols ",").data →
      (∃ s ∈ cols, c ∈ s.data) ∨ c ∈ ("," : String).data := by
  intro cols
  induction cols with
  | nil =>
    intro c hc
    simp [goJoin, show ("" : String).data = [] from rfl] at hc
  | cons x r ih =>
    intro c hc
    cases r with
    | nil =>
      refine Or.inl ⟨x, by simp, ?_⟩
      simpa [goJoin] using hc
    | cons y r2 =>
      rw [show goJoin (x :: y :: r2) "," = x ++ "," ++ goJoin (y :: r2) "," from rfl,
        data_append, data_append] at hc
      rcases List.mem_append.mp hc with hc1 | hc2
      · rcases List.mem_append.mp hc1 with hx | hcomma
        · exact Or.inl ⟨x, by simp, hx⟩
        · exact Or.inr hcomma
      · rcases ih c hc2 with ⟨s, hs, hsc⟩ | hcm
        · exact Or.inl ⟨s, List.mem_cons_of_mem x hs, hsc⟩
        · exact Or.inr hcm

/-- Claim C4 (amended): (1) the compiled SQL text never contains the filtered
values — erasing every payload leaves the fragment and the error behavior
unchanged, only the argument payloads change; (2) every successful
compilation step emits exactly the branch's format string: the scalar branch
backtick-quotes the column, while all six collection operators (exact,
exclude, contains, icontains, in, between) emit the bare column name;
(3) the select list is exactly the comma-join of the given column names,
(4) which contains no characters beyond the names and the comma — so no
quoting is added there either. -/
theorem C4_amended :
    (∀ pairs : List (String × GoVal),
      filterHandler (pairs.map (fun kv => (kv.1, stripLits kv.2))) =
        (filterHandler pairs).map (fun r => (r.1, r.2.map stripLits))) ∧
    (∀ (st : LoopState) (k : String) (v : GoVal) (st' : LoopState) (f o : String) (fl : Nat),
      parseKey st.operator st.flag k = .ok (f, o, fl) →
      filterStep st k v = .ok st' →
      (isScalarKind v.kind = true →
        st'.sql = st.sql ++ ANDOR fl ++ " `" ++ f ++ "`" ++ OperatorSQL o ++ "? ") ∧
      (isSliceKind v.kind = true →
        ((o = "exact" ∨ o = "exclude" ∨ o = "contains" ∨ o = "icontains") →
          st'.sql = st.sql ++ ANDOR fl ++ " ( " ++ f ++ " " ++ OperatorSQL o ++ " ?" ++
            repeatStr (" " ++ ANDOR fl ++ " " ++ f ++ " " ++ OperatorSQL o ++ " ?")
              (v.elems.length - 1) ++ " ) ") ∧
        (o = "in" →
          st'.sql = st.sql ++ ANDOR fl ++ " " ++ f ++ " " ++ BLANKNOT fl ++ " " ++
            OperatorSQL o ++ " (?" ++ repeatStr ",?" (v.elems.length - 1) ++ ") ") ∧
        (o = "between" →
          st'.sql = st.sql ++ ANDOR fl ++ " " ++ f ++ " " ++ BLANKNOT fl ++ " " ++
            OperatorSQL o ++ " ? AND ? "))) ∧
    (∀ (p : QuerySetImpl) (cols : List String),
      (SelectToSQL p cols).selectColumn = goJoin cols ",") ∧
    (∀ (cols : List String) (c : Char), c ∈ (goJoin cols ",").data →
      (∃ s ∈ cols, c ∈ s.data) ∨ c ∈ ("," : String).data) := by
  refine ⟨filterHandler_strip, ?_, ?_, goJoin_chars⟩
  · intro st k v st' f o fl hp h
    exact filterStep_shape st k v st' f o fl hp h
  · intro p cols
    rfl

/-- Claim C4, witness: the shape characterization applied to a concrete
three-element `in` step from the fresh loop state. -/
theorem C4_witness :
    ("AND status  IN (?,?,?) " : String) =
      "" ++ ANDOR 0 ++ " " ++ "status" ++ " " ++ BLANKNOT 0 ++ " " ++ OperatorSQL "in" ++
        " (?" ++ repeatStr ",?" (3 - 1) ++ ") " :=
  ((C4_amended.2.1 ⟨"", "", 0, "", []⟩ "status__in"
      (GoVal.slice [GoVal.str "A", GoVal.str "B", GoVal.str "C"])
      ⟨"status", "in", 0, "AND status  IN (?,?,?) ",
        [GoVal.str "A", GoVal.str "B", GoVal.str "C"]⟩
      "status" "in" 0 rfl rfl).2 rfl).2.1 rfl

/-- Claim C4, counterexample: the collection `in` fragment and the select
list leave the column name unquoted, contradicting the claimed
backtick-quoting. -/
theorem C4_counterexample :
    filterHandler [("status__in", GoVal.slice [GoVal.str "A", GoVal.str "B", GoVal.str "C"])] =
      .ok ("status  IN (?,?,?)", [GoVal.str "A", GoVal.str "B", GoVal.str "C"]) ∧
    "status  IN (?,?,?)" ≠ "`status` IN (?,?,?)" ∧
    GetSelectSQL (SelectToSQL NewQuerySet ["status"]) = "status" ∧
    "status" ≠ "`status`" := by
  refine ⟨rfl, ?_, rfl, ?_⟩ <;> decide

/-! Assembly of the WHERE clause. -/

theorem wrapInclude_and (v : queryFilter) :
    wrapInclude v ++ " AND " = "(" ++ v.SQL ++ ") AND " := by
  simp [wrapInclude, str_append_assoc]

theorem wrapExclude_and (v : queryFilter) :
    wrapExclude v ++ " AND " = "NOT (" ++ v.SQL ++ ") AND " := by
  simp [wrapExclude, str_append_assoc]

theorem concatAll_append (A B : List String) :
    concatAll (A ++ B) = concatAll A ++ concatAll B := by
  induction A with
  | nil => simp [concatAll, str_nil_append]
  | cons x r ih => simp [concatAll, ih, str_append_assoc]

theorem concatAll_map_and (ps : List String) (hne : ps ≠ []) :
    concatAll (ps.map (fun s => s ++ " AND ")) = goJoin ps " AND " ++ " AND " := by
  induction ps with
  | nil => cases hne rfl
  | cons x r ih =>
    cases r with
    | nil => simp [concatAll, goJoin, str_append_nil]
    | cons y r2 =>
      rw [List.map_cons, concatAll, ih (by simp)]
      show (x ++ " AND ") ++ (goJoin (y :: r2) " AND " ++ " AND ") =
        (x ++ " AND " ++ goJoin (y :: r2) " AND ") ++ " AND "
      simp [str_append_assoc]

theorem trimRightL_append_ws {l : List Char} {c : Char} (h : wsChar c = true) :
    trimRightL (l ++ [c]) = trimRightL l := by
  unfold trimRightL
  rw [List.reverse_append]
  simp [List.dropWhile_cons, h]

theorem goJoin_head {x : String} (r : List String) {c : Char} {t : List Char}
    (hx : x.data = c :: t) :
    ∃ u, (goJoin (x :: r) " AND ").data = c :: u := by
  cases r with
  | nil => exact ⟨t, by simpa [goJoin] using hx⟩
  | cons y r2 =>
    refine ⟨t ++ (" AND " ++ goJoin (y :: r2) " AND ").data, ?_⟩
    show (x ++ " AND " ++ goJoin (y :: r2) " AND ").data = _
    rw [str_append_assoc, data_append, hx, data_append]
    simp

theorem goJoin_last (ps : List String) (hne : ps ≠ [])
    (hlast : ∀ s ∈ ps, ∃ u, s.data = u ++ [')']) :
    ∃ w, (goJoin ps " AND ").data = w ++ [')'] := by
  induction ps with
  | nil => cases hne rfl
  | cons x r ih =>
    cases r with
    | nil => simpa [goJoin] using hlast x (by simp)
    | cons y r2 =>
      obtain ⟨w2, hw2⟩ := ih (by simp) (fun s hs => hlast s (by simp [hs]))
      refine ⟨(x ++ " AND ").data ++ w2, ?_⟩
      show (x ++ " AND " ++ goJoin (y :: r2) " AND ").data = _
      rw [str_append_assoc]  -- regroup to x ++ (" AND " ++ J)
      rw [← str_append_assoc x " AND " (goJoin (y :: r2) " AND ")]
      rw [data_append, hw2, List.append_assoc]

theorem wrapInclude_data (v : queryFilter) :
    (wrapInclude v).data = '(' :: (v.SQL.data ++ [')']) := by
  show ("(" ++ v.SQL ++ ")").data = _
  rw [data_append, data_append]
  simp [show ("(" : String).data = ['('] from rfl, show (")" : String).data = [')'] from rfl]

theorem wrapExclude_data (v : queryFilter) :
    (wrapExclude v).data = 'N' :: ('O' :: 'T' :: ' ' :: '(' :: (v.SQL.data ++ [')'])) := by
  show ("NOT (" ++ v.SQL ++ ")").data = _
  rw [data_append, data_append]
  simp [show ("NOT (" : String).data = ['N', 'O', 'T', ' ', '('] from rfl,
    show (")" : String).data = [')'] from rfl]

theorem goTrimSpace_wrapped {J : String} {c : Char} {t w : List Char}
    (hh : J.data = c :: t) (hcns : wsChar c = false)
    (hl : J.data = w ++ [')']) :
    goTrimSpace ⟨J.data ++ [' ']⟩ = J := by
  unfold goTrimSpace
  show (⟨trimRightL (trimLeftL (J.data ++ [' ']))⟩ : String) = J
  have hleft : trimLeftL (J.data ++ [' ']) = J.data ++ [' '] := by
    rw [hh]
    exact trimLeftL_cons_nonws hcns
  rw [hleft, hl, trimRightL_append_ws (by decide),
    trimRightL_last_nonws (by decide), ← hl]

/-- Claim C6: with no raw override, GetQuerySet returns the empty clause for
empty accumulators, and otherwise " WHERE " followed by the parenthesized
include fragments then the NOT-wrapped exclude fragments, all joined by
" AND " with no dangling keyword, with the include arguments (in accumulation
order) before the exclude arguments. -/
theorem C6_assembly (p : QuerySetImpl) (hW : p.whereCondition.SQL = "") :
    (p.filterCondition = [] ∧ p.excludeCondition = [] → GetQuerySet p = ("", [])) ∧
    (p.filterCondition ≠ [] ∨ p.excludeCondition ≠ [] →
      GetQuerySet p =
        (" WHERE " ++
          goJoin (p.filterCondition.map wrapInclude ++ p.excludeCondition.map wrapExclude)
            " AND ",
         (p.filterCondition.map fun v => v.Args).flatten ++
           (p.excludeCondition.map fun v => v.Args).flatten)) := by
  constructor
  · intro ⟨h1, h2⟩
    simp [GetQuerySet, hW, h1, h2]
  · intro hne
    have hPSne : p.filterCondition.map wrapInclude ++ p.excludeCondition.map wrapExclude ≠ [] := by
      rcases hne with h | h <;> simp [h]
    unfold GetQuerySet
    rw [if_neg (by simp [hW])]
    rw [if_neg (by rcases hne with h | h <;> simp [List.length_eq_zero, h])]
    have hmap1 : (p.filterCondition.map fun v => "(" ++ v.SQL ++ ") AND ") =
        (p.filterCondition.map wrapInclude).map (fun s => s ++ " AND ") := by
      rw [List.map_map]
      simp only [Function.comp_def, wrapInclude_and]
    have hmap2 : (p.excludeCondition.map fun v => "NOT (" ++ v.SQL ++ ") AND ") =
        (p.excludeCondition.map wrapExclude).map (fun s => s ++ " AND ") := by
      rw [List.map_map]
      simp only [Function.comp_def, wrapExclude_and]
    have hbody : querySetBody p =
        goJoin (p.filterCondition.map wrapInclude ++ p.excludeCondition.map wrapExclude)
          " AND " ++ " AND " := by
      unfold querySetBody
      rw [hmap1, hmap2, ← concatAll_append, ← List.map_append, concatAll_map_and _ hPSne]
    rw [hbody]
    have hlen : (goJoin (p.filterCondition.map wrapInclude ++
          p.excludeCondition.map wrapExclude) " AND " ++ " AND ").length - 4 =
        (goJoin (p.filterCondition.map wrapInclude ++
          p.excludeCondition.map wrapExclude) " AND ").length + 1 := by
      show ((goJoin _ " AND " ++ " AND ").data.length - 4 = _)
      rw [data_append, List.length_append]
      rfl
    rw [hlen]
    have htake : goTake (goJoin (p.filterCondition.map wrapInclude ++
          p.excludeCondition.map wrapExclude) " AND " ++ " AND ")
        ((goJoin (p.filterCondition.map wrapInclude ++
          p.excludeCondition.map wrapExclude) " AND ").length + 1) =
        ⟨(goJoin (p.filterCondition.map wrapInclude ++
          p.excludeCondition.map wrapExclude) " AND ").data ++ [' ']⟩ := by
      unfold goTake
      apply congrArg String.mk
      rw [data_append, List.take_append_eq_append_take]
      have hJlen : (goJoin (p.filterCondition.map wrapInclude ++
          p.excludeCondition.map wrapExclude) " AND ").length =
          (goJoin (p.filterCondition.map wrapInclude ++
          p.excludeCondition.map wrapExclude) " AND ").data.length := rfl
      rw [hJlen, List.take_of_length_le (by omega)]
      congr 1
      have : (goJoin (p.filterCondition.map wrapInclude ++
          p.excludeCondition.map wrapExclude) " AND ").data.length + 1 -
          (goJoin (p.filterCondition.map wrapInclude ++
          p.excludeCondition.map wrapExclude) " AND ").data.length = 1 := by omega
      rw [this]
      rfl
    rw [htake]
    -- head and last characters of the join are non-whitespace
    obtain ⟨c, t, hh, hcns⟩ :
        ∃ c t, (goJoin (p.filterCondition.map wrapInclude ++
          p.excludeCondition.map wrapExclude) " AND ").data = c :: t ∧ wsChar c = false := by
      cases hf : p.filterCondition with
      | nil =>
        cases he : p.excludeCondition with
        | nil =>
          exfalso
          rcases hne with h | h
          · exact h hf
          · exact h he
        | cons v r =>
          simp only [List.map_nil, List.map_cons, List.nil_append]
          obtain ⟨u, hu⟩ := goJoin_head (r.map wrapExclude) (wrapExclude_data v)
          exact ⟨'N', u, hu, by decide⟩
      | cons v r =>
        simp only [List.map_cons, List.cons_append]
        obtain ⟨u, hu⟩ := goJoin_head (r.map wrapInclude ++ p.excludeCondition.map wrapExclude)
          (wrapInclude_data v)
        exact ⟨'(', u, hu, by decide⟩
    obtain ⟨w, hl⟩ :
        ∃ w, (goJoin (p.filterCondition.map wrapInclude ++
          p.excludeCondition.map wrapExclude) " AND ").data = w ++ [')'] := by
      apply goJoin_last _ hPSne
      intro s hs
      rcases List.mem_append.mp hs with hs | hs
      · obtain ⟨v, _, rfl⟩ := List.mem_map.mp hs
        exact ⟨'(' :: v.SQL.data, by rw [wrapInclude_data]; simp⟩
      · obtain ⟨v, _, rfl⟩ := List.mem_map.mp hs
        exact ⟨'N' :: 'O' :: 'T' :: ' ' :: '(' :: v.SQL.data, by rw [wrapExclude_data]; simp⟩
    rw [goTrimSpace_wrapped hh hcns hl]

/-- Claim C6, witness: one include batch and one exclude batch assemble to
the parenthesized include, then NOT-wrapped exclude, joined by AND. -/
theorem C6_witness :
    GetQuerySet C6wit = (" WHERE (`age`>=?) AND NOT (`deleted`=?)",
      [GoVal.int 18, GoVal.bool true]) := by
  have h := (C6_assembly C6wit rfl).2 (Or.inl (by simp [C6wit]))
  simpa [C6wit, goJoin, wrapInclude, wrapExclude] using h

end Zorm
